import Mathlib

/-!
Verification development for the PerpSpot arbitrage core.

Shallow embedding of the deterministic logic of
`services/slippage_model.py`, `services/bridge_service.py`,
`services/arbitrage_service.py`, `services/cache_service.py` and
`services/ws_listener.py`.  Python floats are modelled as real numbers
(rationals where no square root occurs), exceptions as explicit error
branches, and Python truthiness (`x or d`, `if x:`) by explicit tests
against zero / emptiness.
-/

namespace PerpSpot

/-- Stable insertion used to model Python's stable `sorted(..., key=...)`
in ascending key order: the new element goes in front of the first element
whose key is not smaller, so earlier elements precede later equal-key ones. -/
def insertAsc {α β : Type} [LinearOrder α] (key : β → α) (x : β) : List β → List β
  | [] => [x]
  | y :: ys => if key x ≤ key y then x :: y :: ys else y :: insertAsc key x ys

/-- Stable ascending sort by key, modelling `sorted(levels, key=lambda x: x[0])`. -/
def sortAsc {α β : Type} [LinearOrder α] (key : β → α) : List β → List β
  | [] => []
  | x :: xs => insertAsc key x (sortAsc key xs)

/-- Stable insertion for descending key order: the new element goes in front
of the first element whose key is not larger, so earlier elements precede
later equal-key ones, as Python's stable `sorted(..., reverse=True)` does. -/
def insertDesc {α β : Type} [LinearOrder α] (key : β → α) (x : β) : List β → List β
  | [] => [x]
  | y :: ys => if key y ≤ key x then x :: y :: ys else y :: insertDesc key x ys

/-- Stable descending sort by key, modelling `sorted(..., reverse=True)` and
`list.sort(key=..., reverse=True)`. -/
def sortDesc {α β : Type} [LinearOrder α] (key : β → α) : List β → List β
  | [] => []
  | x :: xs => insertDesc key x (sortDesc key xs)

namespace SlippageModel

/-- Configuration of `SlippageConfig` in `slippage_model.py` (field defaults
are the dataclass defaults; the clamp bounds are not environment-tunable). -/
structure SlippageConfig where
  k_sqrt : ℝ := 0.7
  a_coeff : ℝ := 0.3
  b_power : ℝ := 0.6
  decay_rate : ℝ := 0.8
  min_slippage_bps : ℝ := 0.5
  max_slippage_bps : ℝ := 500

/-- The default configuration `SlippageConfig()`. -/
noncomputable def defaultConfig : SlippageConfig := {}

/-- A configuration as built by `SlippageModel.__init__`: `k_sqrt`, `a_coeff`
and `b_power` may be overridden from the environment, the clamp bounds not. -/
noncomputable def envConfig (k a b : ℝ) : SlippageConfig :=
  { k_sqrt := k, a_coeff := a, b_power := b }

/-- Per-token configuration record from `_load_token_configs`. -/
structure TokenConfig where
  typical_adv_usd : ℝ
  depth_multiplier : ℝ
  volatility_factor : ℝ

/-- The table built by `SlippageModel._load_token_configs` (keys are
upper-case token symbols; no entry plays the role of a missing key). -/
noncomputable def tokenConfigs : String → Option TokenConfig
  | "SOL" => some ⟨100000000, 1, 1.2⟩
  | "ETH" => some ⟨500000000, 0.8, 1⟩
  | "BTC" => some ⟨1000000000, 0.6, 0.9⟩
  | "USDC" => some ⟨200000000, 0.3, 0.1⟩
  | "USDT" => some ⟨300000000, 0.3, 0.1⟩
  | _ => none

/-- Numeric body of `estimate_slippage_by_notional`, after the coefficient
and ADV have been resolved: non-positive ADV is replaced by 1e7;
`math.sqrt` of a negative argument raises and the surrounding `except`
clause returns the fixed fallback 0.005; otherwise the value in bps is
clamped into `[min_slippage_bps, max_slippage_bps]` and returned as a
fraction. -/
noncomputable def sqrtCore (cfg : SlippageConfig)
    (k_effective adv1 notional_usd : ℝ) : ℝ :=
  let adv2 := if adv1 ≤ 0 then 10000000 else adv1
  let participation := notional_usd / adv2
  if participation < 0 then 0.005
  else
    let slippage_pct := k_effective * Real.sqrt participation
    let slippage_bps := slippage_pct * 10000
    let bounded :=
      if slippage_bps < cfg.min_slippage_bps then max slippage_bps cfg.min_slippage_bps
      else if slippage_bps > cfg.max_slippage_bps then min slippage_bps cfg.max_slippage_bps
      else slippage_bps
    bounded / 10000

/-- `SlippageModel.estimate_slippage_by_notional`.  `k or self.config.k_sqrt`
treats `k=0` (and `k=None`) as absent; a token found in `tokenConfigs` scales
the coefficient and floors the ADV; the numeric tail is `sqrtCore`. -/
noncomputable def estimate_slippage_by_notional (cfg : SlippageConfig)
    (notional_usd adv_usd : ℝ) (k : Option ℝ) (token : Option String) : ℝ :=
  let k0 : ℝ :=
    match k with
    | some kv => if kv = 0 then cfg.k_sqrt else kv
    | none => cfg.k_sqrt
  let adjusted : ℝ × ℝ :=
    match token with
    | some t =>
      match tokenConfigs t.toUpper with
      | some tc => (k0 * tc.volatility_factor, max adv_usd tc.typical_adv_usd)
      | none => (k0, adv_usd)
    | none => (k0, adv_usd)
  sqrtCore cfg adjusted.1 adjusted.2 notional_usd

/-- Numeric body of `estimate_almgren_chriss_impact` after coefficient
resolution: non-positive daily volume is replaced by 5e7; a negative volume
fraction under the (non-integer) default exponent makes the Python power
complex and the subsequent comparison raise, so the `except` clause returns
0.003; otherwise the impact in bps is clamped into `[0.1, 1000]`. -/
noncomputable def acCore (a1 b0 notional_usd daily_vol_usd : ℝ) : ℝ :=
  let dv := if daily_vol_usd ≤ 0 then 50000000 else daily_vol_usd
  let volumeFrac := notional_usd / dv
  if volumeFrac < 0 then 0.003
  else
    let impact_pct := a1 * volumeFrac ^ b0
    let impact_bps := max 0.1 (min (impact_pct * 10000) 1000)
    impact_bps / 10000

/-- `SlippageModel.estimate_almgren_chriss_impact`.  `a or ...` / `b or ...`
treat zero as absent; a known token scales the coefficient; the numeric tail
is `acCore`. -/
noncomputable def estimate_almgren_chriss_impact (cfg : SlippageConfig)
    (notional_usd daily_vol_usd : ℝ) (a b : Option ℝ) (token : Option String) : ℝ :=
  let a0 : ℝ :=
    match a with
    | some v => if v = 0 then cfg.a_coeff else v
    | none => cfg.a_coeff
  let b0 : ℝ :=
    match b with
    | some v => if v = 0 then cfg.b_power else v
    | none => cfg.b_power
  let a1 : ℝ :=
    match token with
    | some t =>
      match tokenConfigs t.toUpper with
      | some tc => a0 * tc.volatility_factor
      | none => a0
    | none => a0
  acCore a1 b0 notional_usd daily_vol_usd

/-- Trade side as passed to the depth estimator. -/
inductive Side where
  | buy
  | sell
deriving DecidableEq

/-- The core loop of `estimate_execution_price_from_depth`: walk the sorted
levels, at each level executing `min(remaining_size, available_size)`,
accumulating cost and executed size, and stopping once nothing remains.
Returns `(remaining_size, total_cost, total_executed)`. -/
def walkLevels {α : Type} [LinearOrderedField α] :
    List (α × α) → α → α → α → α × α × α
  | [], remaining, cost, executed => (remaining, cost, executed)
  | (price, avail) :: rest, remaining, cost, executed =>
    if remaining ≤ 0 then (remaining, cost, executed)
    else
      let ex := min remaining avail
      walkLevels rest (remaining - ex) (cost + ex * price) (executed + ex)

/-- The per-level executed sizes of the walk, in level order (zero for the
levels reached after the requested size is exhausted). -/
def fillsOf {α : Type} [LinearOrderedField α] : List (α × α) → α → List α
  | [], _ => []
  | (_, avail) :: rest, remaining =>
    if remaining ≤ 0 then 0 :: fillsOf rest remaining
    else min remaining avail :: fillsOf rest (remaining - min remaining avail)

/-- `current_price or 100.0`: `None` and `0.0` fall back to 100. -/
noncomputable def currentPriceD : Option ℝ → ℝ
  | some c => if c = 0 then 100 else c
  | none => 100

/-- The side-dependent sorting of the book: ascending prices for a buy,
descending for a sell (both stable, as Python's `sorted`). -/
noncomputable def sideSorted (side : Side) (L : List (ℝ × ℝ)) : List (ℝ × ℝ) :=
  match side with
  | Side.buy => sortAsc (fun l => l.1) L
  | Side.sell => sortDesc (fun l => l.1) L

/-- `SlippageModel.estimate_execution_price_from_depth` for list-format depth
(the dict format merely selects the `asks`/`bids` list for the side).
Empty depth returns the fallback `(current_price or 100, 0.01)`; a walk that
executes nothing returns `(current_price or 100, 0.05)`; otherwise slippage
is taken against a positive current price (signed by side) or against the
best level, its absolute value clamped to `[0, 0.20]`, plus a partial-fill
penalty `(1 - fill fraction) * 0.1` when size remains.  A zero best level
makes the Python division raise and the `except` clause return
`(fallback * 1.01, 0.01)`. -/
noncomputable def estimate_execution_price_from_depth
    (size_token : ℝ) (depth : List (ℝ × ℝ)) (side : Side)
    (current_price : Option ℝ) : ℝ × ℝ :=
  match depth with
  | [] => (currentPriceD current_price, 0.01)
  | d :: ds =>
    let levels := sideSorted side (d :: ds)
    let w := walkLevels levels size_token 0 0
    let remaining_size := w.1
    let total_cost := w.2.1
    let total_executed := w.2.2
    if total_executed = 0 then (currentPriceD current_price, 0.05)
    else
      let avg := total_cost / total_executed
      let best := (levels.headD (0, 0)).1
      let slip0 : Option ℝ :=
        match current_price with
        | some cp =>
          if 0 < cp then
            some (match side with
                  | Side.buy => (avg - cp) / cp
                  | Side.sell => (cp - avg) / cp)
          else if best = 0 then none else some (|avg - best| / best)
        | none => if best = 0 then none else some (|avg - best| / best)
      match slip0 with
      | none => (currentPriceD current_price * 1.01, 0.01)
      | some s0 =>
        let s1 := max 0 (min |s0| 0.20)
        let s2 :=
          if 0 < remaining_size then s1 + (1 - total_executed / size_token) * 0.1
          else s1
        (avg, s2)

/-- The method estimates recorded by `estimate_combined_slippage` together
with the blended recommendation. -/
structure CombinedResult where
  sqrt_model : Option ℝ
  almgren_chriss : Option ℝ
  depth_based : Option ℝ
  recommended : ℝ

/-- Python truthiness gate `if adv_usd:`: the ADV is used exactly when
present and non-zero. -/
noncomputable def advGate : Option ℝ → Option ℝ
  | some a => if a = 0 then none else some a
  | none => none

/-- Python truthiness gate `if depth and current_price:`: the depth method
runs exactly when the depth list is present and non-empty and the reference
price is present and non-zero. -/
noncomputable def depthGate :
    Option (List (ℝ × ℝ)) → Option ℝ → Option (List (ℝ × ℝ) × ℝ)
  | some (d :: ds), some cp => if cp = 0 then none else some (d :: ds, cp)
  | _, _ => none

/-- The `recommended` blend of `estimate_combined_slippage`: fixed weights
0.4 / 0.3 / 0.3, summed with 0 for absent methods (`results.get(method, 0)`)
and renormalised over the methods that ran; 0.01 when none ran (and the
defensive `if total_weight > 0` branch of the source). -/
noncomputable def blendRecommended (sM aM dM : Option ℝ) : ℝ :=
  let weighted_sum := sM.getD 0 * 0.4 + aM.getD 0 * 0.3 + dM.getD 0 * 0.3
  let total_weight := (if sM.isSome then (0.4 : ℝ) else 0)
    + (if aM.isSome then (0.3 : ℝ) else 0)
    + (if dM.isSome then (0.3 : ℝ) else 0)
  if sM.isSome ∨ aM.isSome ∨ dM.isSome then
    if 0 < total_weight then weighted_sum / total_weight else 0.01
  else 0.01

/-- `SlippageModel.estimate_combined_slippage`: the square-root and
Almgren-Chriss models run behind `advGate`, the depth estimator behind
`depthGate` on `size_token = notional_usd / current_price`, and the
recommendation is `blendRecommended`. -/
noncomputable def estimate_combined_slippage (cfg : SlippageConfig)
    (notional_usd : ℝ) (token : String) (adv_usd : Option ℝ)
    (depth : Option (List (ℝ × ℝ))) (current_price : Option ℝ)
    (side : Side) : CombinedResult :=
  let advT := advGate adv_usd
  let sqrtM := advT.map fun a =>
    estimate_slippage_by_notional cfg notional_usd a none (some token)
  let acM := advT.map fun a =>
    estimate_almgren_chriss_impact cfg notional_usd a none none (some token)
  let depthM := (depthGate depth current_price).map fun p =>
    (estimate_execution_price_from_depth (notional_usd / p.2) p.1 side (some p.2)).2
  ⟨sqrtM, acM, depthM, blendRecommended sqrtM acM depthM⟩

end SlippageModel

namespace BridgeService

/-- Aggregate statistics of `simulate_bridge_execution_monte_carlo`
(`simulation_stats` keys relevant here). -/
structure MCStats where
  n_simulations : ℤ
  mean_pnl : ℚ
  success_probability : ℚ
  sample_draw_count : ℕ
deriving DecidableEq

/-- `BridgeArbitrageService.simulate_bridge_execution_monte_carlo`,
template-free call.  The requested count is capped by `min(n_sims, 5000)`
only.  When the capped count is not positive, numpy raises
(`np.zeros` of a negative size, `np.percentile` of the empty array), and the
surrounding `except` clause returns the error payload, which carries no
`n_simulations` value: this is the error branch.  The per-draw stochastic
arithmetic (exponential latency, normal slippage noise, spread decay,
funding impact, fill-skew and cost subtraction) is abstracted into the
supplied net-PnL draw oracle; the bookkeeping that is claimed about —
the cap, the failure on a non-positive count, the reported count, the
success fraction and the bounded sample of draws — is modelled exactly. -/
def simulate_bridge_execution_monte_carlo (n_sims : ℤ) (pnlDraw : ℕ → ℚ) :
    Except String MCStats :=
  let n := min n_sims 5000
  if n ≤ 0 then Except.error ("numpy raises on an empty or negative-size sample array")
  else
    let N := n.toNat
    let pnls := (List.range N).map pnlDraw
    let successes := pnls.filter fun p => decide (0 < p)
    Except.ok
      { n_simulations := n
        mean_pnl := pnls.sum / (N : ℚ)
        success_probability := (successes.length : ℚ) / (N : ℚ)
        sample_draw_count := min 10 N }

/-- The `n_simulations` value reported by a simulation result, when any. -/
def reportedNSimulations : Except String MCStats → Option ℤ
  | Except.ok s => some s.n_simulations
  | Except.error _ => none

/-- A concrete draw oracle for witnesses. -/
def zeroDraw : ℕ → ℚ := fun _ => 0

/-- `ExecutionTemplate` dataclass of `bridge_service.py` (`created_at` is
stamped with the wall clock in `__post_init__`; it is a plain field here). -/
structure ExecutionTemplate where
  name : String
  token_pair : String
  trade_size : ℚ
  max_latency : ℚ
  min_spread_bps : ℚ
  funding_threshold : ℚ
  preferred_direction : String
  risk_multiplier : ℚ := 1
  created_at : ℚ := 0
deriving DecidableEq

/-- The three defaults loaded by `_load_default_templates`. -/
def defaultTemplates : List ExecutionTemplate :=
  [{ name := "SOL Scalping", token_pair := "SOL-USDC", trade_size := 1000,
     max_latency := 2, min_spread_bps := 30, funding_threshold := -0.01,
     preferred_direction := "auto" },
   { name := "ETH Conservative", token_pair := "ETH-USDC", trade_size := 2000,
     max_latency := 3, min_spread_bps := 50, funding_threshold := -0.005,
     preferred_direction := "long_perp" },
   { name := "BTC Large Size", token_pair := "BTC-USDC", trade_size := 5000,
     max_latency := 4, min_spread_bps := 40, funding_threshold := -0.008,
     preferred_direction := "auto", risk_multiplier := 0.8 }]

/-- `save_execution_template`: unconditionally appends the new template. -/
def save_execution_template (store : List ExecutionTemplate)
    (t : ExecutionTemplate) : List ExecutionTemplate :=
  store ++ [t]

/-- `delete_execution_template`: keeps exactly the templates whose name
differs from the given one. -/
def delete_execution_template (store : List ExecutionTemplate)
    (templateName : String) : List ExecutionTemplate :=
  store.filter fun t => t.name != templateName

/-- An operation on the template store. -/
inductive TemplateOp where
  | save : ExecutionTemplate → TemplateOp
  | delete : String → TemplateOp

/-- Apply one store operation. -/
def applyTemplateOp (store : List ExecutionTemplate) :
    TemplateOp → List ExecutionTemplate
  | TemplateOp.save t => save_execution_template store t
  | TemplateOp.delete n => delete_execution_template store n

/-- Run a sequence of store operations from a starting store. -/
def runTemplateOps (store : List ExecutionTemplate) (ops : List TemplateOp) :
    List ExecutionTemplate :=
  ops.foldl applyTemplateOp store

/-- A template reusing the name of a default template. -/
def dupTemplate : ExecutionTemplate :=
  { name := "SOL Scalping", token_pair := "SOL-USDC", trade_size := 500,
    max_latency := 1, min_spread_bps := 20, funding_threshold := -0.02,
    preferred_direction := "auto" }

end BridgeService

namespace ArbitrageService

/-- The fields of a `hyperliquid` per-token price record that the detector
reads (`dict.get` defaults of 0 are already folded into the fields). -/
structure PerpData where
  mark_price : ℚ
  funding_rate : ℚ := 0
deriving DecidableEq

/-- The fields of a `jupiter` per-token price record that the detector reads. -/
structure SpotData where
  spot_price : ℚ
  price : ℚ
deriving DecidableEq

/-- `jupiter_data.get('spot_price', 0) or jupiter_data.get('price', 0)`:
Python truthiness falls through to `price` when `spot_price` is zero. -/
def effectiveSpot (j : SpotData) : ℚ :=
  if j.spot_price ≠ 0 then j.spot_price else j.price

/-- `spread_pct = ((perp_price - spot_price) / spot_price) * 100`. -/
def spread_pct (perp spot : ℚ) : ℚ :=
  (perp - spot) / spot * 100

/-- The configured threshold `self.min_spread_threshold = 0.3`. -/
def min_spread_threshold : ℚ := 0.3

/-- The opportunity record fields relevant to the claims. -/
structure Opportunity where
  token : String
  spot_price : ℚ
  perp_price : ℚ
  opp_spread_pct : ℚ
  spread_abs : ℚ
  strategy : String
deriving DecidableEq

/-- Per-token body of `_calculate_arbitrage_opportunities`: with both legs
present (non-empty dicts) and both prices positive, an opportunity is stored
exactly when `|spread_pct| >= min_spread_threshold`, with the strategy chosen
by the sign of the spread. -/
def calcOpp (token : String) (hl : Option PerpData) (jup : Option SpotData) :
    Option Opportunity :=
  match hl, jup with
  | some h, some j =>
    let perp := h.mark_price
    let spot := effectiveSpot j
    if 0 < perp ∧ 0 < spot then
      let s := spread_pct perp spot
      if min_spread_threshold ≤ |s| then
        some { token := token, spot_price := spot, perp_price := perp,
               opp_spread_pct := s, spread_abs := |s|,
               strategy := if 0 < s then "long_spot_short_perp"
                           else "short_spot_long_perp" }
      else none
    else none
  | _, _ => none

/-- `_calculate_arbitrage_opportunities` over a whole snapshot, given as the
tokens in iteration order with their two optional legs. -/
def calculate_arbitrage_opportunities
    (snapshot : List (String × Option PerpData × Option SpotData)) :
    List Opportunity :=
  snapshot.filterMap fun e => calcOpp e.1 e.2.1 e.2.2

/-- The `min_spread` pre-filter of `get_arbitrage_opportunities`. -/
def filterMinSpread (store : List Opportunity) (min_spread : Option ℚ) :
    List Opportunity :=
  match min_spread with
  | some m => store.filter fun o => decide (m ≤ o.spread_abs)
  | none => store

/-- `get_arbitrage_opportunities`: the stored opportunities in insertion
order, optionally filtered by `min_spread`, then stably sorted by
`spread_abs` descending (`list.sort(key=..., reverse=True)`). -/
def get_arbitrage_opportunities (store : List Opportunity)
    (min_spread : Option ℚ) : List Opportunity :=
  sortDesc (fun o => o.spread_abs) (filterMinSpread store min_spread)

/-- Concrete equal-spread opportunities in the iteration order of
`supported_tokens`, for the tie-order analysis. -/
def oSOL : Opportunity :=
  { token := "SOL", spot_price := 100, perp_price := 101, opp_spread_pct := 1,
    spread_abs := 1, strategy := "long_spot_short_perp" }

/-- Second equal-spread opportunity. -/
def oETH : Opportunity :=
  { token := "ETH", spot_price := 200, perp_price := 202, opp_spread_pct := 1,
    spread_abs := 1, strategy := "long_spot_short_perp" }

/-- Third equal-spread opportunity. -/
def oJUP : Opportunity :=
  { token := "JUP", spot_price := 2, perp_price := 2, opp_spread_pct := 1,
    spread_abs := 1, strategy := "long_spot_short_perp" }

end ArbitrageService

namespace CacheService

/-- The state of a `CacheService`: connectivity flag, default TTL, and the
two tiers as association lists of `(key, value, expiresAt)`. -/
structure CacheState (α : Type) where
  redis_connected : Bool
  default_ttl : ℚ := 7
  local_cache : List (String × α × ℚ) := []
  redis_store : List (String × α × ℚ) := []

/-- `CacheService.get`: the local TTL cache first (a hit requires an
unexpired entry), then Redis when connected (`setex` entries expire by
TTL as well); otherwise a miss. -/
def cacheGet {α : Type} (s : CacheState α) (now : ℚ) (key : String) : Option α :=
  match s.local_cache.find? (fun e => e.1 == key && decide (now < e.2.2)) with
  | some e => some e.2.1
  | none =>
    if s.redis_connected then
      match s.redis_store.find? (fun e => e.1 == key && decide (now < e.2.2)) with
      | some e => some e.2.1
      | none => none
    else none

/-- `CacheService.set`: when Redis is not connected it returns `False` and
stores nothing at all (the local tier is never written in the module); when
connected it writes only the Redis tier via `setex`, with `ttl or
self.default_ttl` treating a zero TTL as absent. -/
def cacheSet {α : Type} (s : CacheState α) (now : ℚ) (key : String) (v : α)
    (ttl : Option ℚ) : Bool × CacheState α :=
  if s.redis_connected then
    let t :=
      match ttl with
      | some x => if x = 0 then s.default_ttl else x
      | none => s.default_ttl
    (true, { s with
      redis_store := (key, v, now + t) :: s.redis_store.filter fun e => e.1 != key })
  else (false, s)

/-- A cache whose Redis connection failed at startup: the constructor's
degraded, local-only mode. -/
def offlineCache : CacheState ℚ :=
  { redis_connected := false }

end CacheService

namespace WsListener

/-- Primary endpoint `self.mainnet_ws_url`. -/
def mainnet_ws_url : String := "wss://api.hyperliquid.xyz/ws"

/-- Secondary endpoint `self.testnet_ws_url`. -/
def testnet_ws_url : String := "wss://api.hyperliquid-testnet.xyz/ws"

/-- `self.max_reconnect_attempts = 10`. -/
def max_reconnect_attempts : ℕ := 10

/-- `self.base_delay = 1`. -/
def base_delay : ℕ := 1

/-- `self.max_delay = 60`. -/
def max_delay : ℕ := 60

/-- The connection-loop state of `WebSocketListener` that the failure
handling touches (`delay` is the local backoff variable of `connect`). -/
structure ListenerState where
  ws_url : String
  use_testnet_fallback : Bool
  reconnect_attempts : ℕ
  running : Bool
  delay : ℕ
deriving DecidableEq

/-- The state on entry to `connect` after `start_background_listener`. -/
def initListener : ListenerState :=
  { ws_url := mainnet_ws_url, use_testnet_fallback := false,
    reconnect_attempts := 0, running := true, delay := base_delay }

/-- One iteration of the `connect` loop in which the connection attempt
fails (the generic `except` branch): if the loop guard admits the iteration,
the listener switches to the testnet endpoint and zeroes the counter once a
non-fallback state has seen at least 3 prior failures, then
`_handle_reconnection` increments the counter (stopping the listener when
the budget is exhausted), and the backoff delay doubles up to the cap. -/
def failStep (s : ListenerState) : ListenerState :=
  if s.running ∧ s.reconnect_attempts < max_reconnect_attempts then
    let s1 :=
      if ¬ s.use_testnet_fallback ∧ 3 ≤ s.reconnect_attempts then
        { s with ws_url := testnet_ws_url, use_testnet_fallback := true,
                 reconnect_attempts := 0 }
      else s
    let s2 := { s1 with reconnect_attempts := s1.reconnect_attempts + 1 }
    let s3 :=
      if s2.reconnect_attempts < max_reconnect_attempts then s2
      else { s2 with running := false }
    { s3 with delay := min (s3.delay * 2) max_delay }
  else s

/-- A successful connection: the counter and the backoff delay reset. -/
def successStep (s : ListenerState) : ListenerState :=
  { s with reconnect_attempts := 0, delay := base_delay }

/-- The state after four consecutive failed attempts from the initial state. -/
def afterFourFailures : ListenerState :=
  failStep (failStep (failStep (failStep initListener)))

end WsListener

open SlippageModel

/-! ## Helper lemmas on the stable sorts and the depth walk -/

theorem mem_insertAsc {α β : Type} [LinearOrder α] (key : β → α) (x y : β)
    (l : List β) : y ∈ insertAsc key x l ↔ y = x ∨ y ∈ l := by
  induction l with
  | nil => simp [insertAsc]
  | cons z zs ih =>
    simp only [insertAsc]
    split
    · simp [List.mem_cons]
    · simp only [List.mem_cons, ih]
      tauto

theorem mem_sortAsc {α β : Type} [LinearOrder α] (key : β → α) (y : β)
    (l : List β) : y ∈ sortAsc key l ↔ y ∈ l := by
  induction l with
  | nil => simp [sortAsc]
  | cons z zs ih =>
    simp only [sortAsc, mem_insertAsc, List.mem_cons, ih]

theorem mem_insertDesc {α β : Type} [LinearOrder α] (key : β → α) (x y : β)
    (l : List β) : y ∈ insertDesc key x l ↔ y = x ∨ y ∈ l := by
  induction l with
  | nil => simp [insertDesc]
  | cons z zs ih =>
    simp only [insertDesc]
    split
    · simp [List.mem_cons]
    · simp only [List.mem_cons, ih]
      tauto

theorem mem_sortDesc {α β : Type} [LinearOrder α] (key : β → α) (y : β)
    (l : List β) : y ∈ sortDesc key l ↔ y ∈ l := by
  induction l with
  | nil => simp [sortDesc]
  | cons z zs ih =>
    simp only [sortDesc, mem_insertDesc, List.mem_cons, ih]

theorem pairwise_insertDesc {α β : Type} [LinearOrder α] (key : β → α)
    (x : β) (l : List β) (h : l.Pairwise fun a b => key b ≤ key a) :
    (insertDesc key x l).Pairwise fun a b => key b ≤ key a := by
  induction l with
  | nil => simp [insertDesc]
  | cons y ys ih =>
    rw [List.pairwise_cons] at h
    simp only [insertDesc]
    split
    · rename_i hyx
      refine List.pairwise_cons.mpr ⟨?_, List.pairwise_cons.mpr ⟨h.1, h.2⟩⟩
      intro b hb
      rcases List.mem_cons.mp hb with rfl | hb
      · exact hyx
      · exact le_trans (h.1 b hb) hyx
    · rename_i hyx
      push_neg at hyx
      refine List.pairwise_cons.mpr ⟨?_, ih h.2⟩
      intro b hb
      rcases (mem_insertDesc key x b ys).mp hb with rfl | hb
      · exact le_of_lt hyx
      · exact h.1 b hb

theorem pairwise_sortDesc {α β : Type} [LinearOrder α] (key : β → α)
    (l : List β) : (sortDesc key l).Pairwise fun a b => key b ≤ key a := by
  induction l with
  | nil => simp [sortDesc]
  | cons x xs ih => exact pairwise_insertDesc key x _ ih

theorem filter_insertDesc {α β : Type} [LinearOrder α] [DecidableEq α]
    (key : β → α) (q : α) (x : β) (l : List β) :
    (insertDesc key x l).filter (fun y => decide (key y = q)) =
      if key x = q then x :: l.filter (fun y => decide (key y = q))
      else l.filter (fun y => decide (key y = q)) := by
  induction l with
  | nil =>
    by_cases hx : key x = q
    · simp [insertDesc, List.filter, hx]
    · simp [insertDesc, List.filter, hx]
  | cons y ys ih =>
    simp only [insertDesc]
    split
    · rename_i hyx
      by_cases hx : key x = q
      · simp [List.filter_cons, hx]
      · simp [List.filter_cons, hx]
    · rename_i hyx
      push_neg at hyx
      by_cases hy : key y = q
      · have hx : ¬ key x = q := by
          intro hx
          rw [hx, ← hy] at hyx
          exact lt_irrefl _ hyx
        simp [List.filter_cons, hy, hx, ih]
      · simp [List.filter_cons, hy, ih]

theorem filter_sortDesc {α β : Type} [LinearOrder α] [DecidableEq α]
    (key : β → α) (q : α) (l : List β) :
    (sortDesc key l).filter (fun y => decide (key y = q)) =
      l.filter (fun y => decide (key y = q)) := by
  induction l with
  | nil => rfl
  | cons x xs ih =>
    simp only [sortDesc]
    rw [filter_insertDesc]
    by_cases hx : key x = q
    · simp [List.filter_cons, hx, ih]
    · simp [List.filter_cons, hx, ih]

theorem walkLevels_exec_le {α : Type} [LinearOrderedField α]
    (L : List (α × α)) : ∀ r c e : α, 0 ≤ r →
    (walkLevels L r c e).2.2 ≤ e + r := by
  induction L with
  | nil =>
    intro r c e hr
    simp only [walkLevels]
    linarith
  | cons hd tl ih =>
    intro r c e hr
    obtain ⟨p, a⟩ := hd
    simp only [walkLevels]
    split
    · simp only
      linarith
    · rename_i hr0
      push_neg at hr0
      have hex : min r a ≤ r := min_le_left r a
      have h := ih (r - min r a) (c + min r a * p) (e + min r a) (by linarith)
      calc (walkLevels tl (r - min r a) (c + min r a * p) (e + min r a)).2.2
          ≤ (e + min r a) + (r - min r a) := h
        _ = e + r := by ring

theorem walkLevels_exec_nonneg {α : Type} [LinearOrderedField α]
    (L : List (α × α)) : ∀ r c e : α, 0 ≤ e → (∀ l ∈ L, 0 ≤ l.2) →
    0 ≤ (walkLevels L r c e).2.2 := by
  induction L with
  | nil =>
    intro r c e he _
    simpa [walkLevels] using he
  | cons hd tl ih =>
    intro r c e he hsz
    obtain ⟨p, a⟩ := hd
    simp only [walkLevels]
    split
    · simpa using he
    · rename_i h0
      push_neg at h0
      have ha : 0 ≤ a := hsz (p, a) (List.mem_cons_self _ _)
      have hex : 0 ≤ min r a := le_min h0.le ha
      exact ih _ _ _ (by linarith) fun l hl => hsz l (List.mem_cons_of_mem _ hl)

theorem walkLevels_break {α : Type} [LinearOrderedField α]
    (hd : α × α) (tl : List (α × α)) (r c e : α) (hr : r ≤ 0) :
    walkLevels (hd :: tl) r c e = (r, c, e) := by
  obtain ⟨p, a⟩ := hd
  simp [walkLevels, hr]

theorem fillsOf_le_avail {α : Type} [LinearOrderedField α]
    (L : List (α × α)) : ∀ r : α, (∀ l ∈ L, 0 ≤ l.2) →
    ∀ pf ∈ L.zip (fillsOf L r), pf.2 ≤ pf.1.2 := by
  induction L with
  | nil =>
    intro r _ pf hpf
    simp [fillsOf] at hpf
  | cons hd tl ih =>
    intro r hsz pf hpf
    obtain ⟨p, a⟩ := hd
    rw [fillsOf] at hpf
    by_cases hr : r ≤ 0
    · rw [if_pos hr, List.zip_cons_cons] at hpf
      rcases List.mem_cons.mp hpf with rfl | h
      · exact hsz (p, a) (List.mem_cons_self _ _)
      · exact ih r (fun l hl => hsz l (List.mem_cons_of_mem _ hl)) pf h
    · rw [if_neg hr, List.zip_cons_cons] at hpf
      rcases List.mem_cons.mp hpf with rfl | h
      · exact min_le_right r a
      · exact ih (r - min r a) (fun l hl => hsz l (List.mem_cons_of_mem _ hl)) pf h

theorem walkLevels_cost_bound {α : Type} [LinearOrderedField α]
    (lo hi : α) (L : List (α × α)) : ∀ r c e : α, 0 ≤ e →
    lo * e ≤ c → c ≤ hi * e → (∀ l ∈ L, 0 ≤ l.2) →
    (∀ pf ∈ L.zip (fillsOf L r), 0 < pf.2 → lo ≤ pf.1.1 ∧ pf.1.1 ≤ hi) →
    0 ≤ (walkLevels L r c e).2.2 ∧
      lo * (walkLevels L r c e).2.2 ≤ (walkLevels L r c e).2.1 ∧
      (walkLevels L r c e).2.1 ≤ hi * (walkLevels L r c e).2.2 := by
  induction L with
  | nil =>
    intro r c e he h1 h2 _ _
    simpa [walkLevels] using ⟨he, h1, h2⟩
  | cons hd tl ih =>
    intro r c e he h1 h2 hsz hcons
    obtain ⟨p, a⟩ := hd
    by_cases hr : r ≤ 0
    · rw [walkLevels_break (p, a) tl r c e hr]
      exact ⟨he, h1, h2⟩
    · push_neg at hr
      have ha : 0 ≤ a := hsz (p, a) (List.mem_cons_self _ _)
      have hex0 : 0 ≤ min r a := le_min hr.le ha
      have hw : walkLevels ((p, a) :: tl) r c e
          = walkLevels tl (r - min r a) (c + min r a * p) (e + min r a) := by
        simp [walkLevels, not_le.mpr hr]
      rw [hw]
      rw [fillsOf, if_neg (not_le.mpr hr)] at hcons
      have hconsTl : ∀ pf ∈ tl.zip (fillsOf tl (r - min r a)), 0 < pf.2 →
          lo ≤ pf.1.1 ∧ pf.1.1 ≤ hi := by
        intro pf hpf hpos
        refine hcons pf ?_ hpos
        rw [List.zip_cons_cons]
        exact List.mem_cons_of_mem _ hpf
      have hszTl : ∀ l ∈ tl, 0 ≤ l.2 :=
        fun l hl => hsz l (List.mem_cons_of_mem _ hl)
      rcases eq_or_lt_of_le hex0 with hz | hpos
      · refine ih (r - min r a) _ _ (by linarith) ?_ ?_ hszTl hconsTl
        · rw [← hz]
          simpa using h1
        · rw [← hz]
          simpa using h2
      · have hp : lo ≤ p ∧ p ≤ hi := by
          refine hcons ((p, a), min r a) ?_ hpos
          rw [List.zip_cons_cons]
          exact List.mem_cons_self _ _
        refine ih (r - min r a) _ _ (by linarith) ?_ ?_ hszTl hconsTl
        · have : lo * min r a ≤ min r a * p := by
            rw [mul_comm (min r a) p]
            exact mul_le_mul_of_nonneg_right hp.1 hex0
          calc lo * (e + min r a) = lo * e + lo * min r a := by ring
            _ ≤ c + min r a * p := by linarith
        · have : min r a * p ≤ hi * min r a := by
            rw [mul_comm hi (min r a)]
            exact mul_le_mul_of_nonneg_left hp.2 hex0
          calc c + min r a * p ≤ hi * e + hi * min r a := by linarith
            _ = hi * (e + min r a) := by ring

/-! ## Bound lemmas for the slippage estimators -/

theorem clampChain_bounds (lo hi x : ℝ) (_hlo : 0 < lo) (hlohi : lo ≤ hi) :
    lo ≤ (if x < lo then max x lo else if x > hi then min x hi else x) ∧
    (if x < lo then max x lo else if x > hi then min x hi else x) ≤ hi := by
  split_ifs with h1 h2
  · exact ⟨le_max_right _ _, max_le (by linarith) hlohi⟩
  · have hx : lo ≤ x := not_lt.mp h1
    exact ⟨le_min hx hlohi, min_le_right _ _⟩
  · have hx : lo ≤ x := not_lt.mp h1
    have hx2 : x ≤ hi := not_lt.mp h2
    exact ⟨hx, hx2⟩

theorem sqrtCore_bounds (cfg : SlippageConfig)
    (hmin : cfg.min_slippage_bps = 0.5) (hmax : cfg.max_slippage_bps = 500)
    (keff adv n : ℝ) :
    0 < sqrtCore cfg keff adv n ∧ sqrtCore cfg keff adv n ≤ 1 / 20 := by
  simp only [sqrtCore, hmin, hmax]
  by_cases hp : n / (if adv ≤ 0 then (10000000 : ℝ) else adv) < 0
  · rw [if_pos hp]
    norm_num
  · rw [if_neg hp]
    have h := clampChain_bounds 0.5 500
      (keff * Real.sqrt (n / (if adv ≤ 0 then (10000000 : ℝ) else adv)) * 10000)
      (by norm_num) (by norm_num)
    constructor
    · have := h.1
      linarith
    · have := h.2
      linarith

theorem estimate_slippage_bounds (cfg : SlippageConfig)
    (hmin : cfg.min_slippage_bps = 0.5) (hmax : cfg.max_slippage_bps = 500)
    (n adv : ℝ) (ko : Option ℝ) (tok : Option String) :
    0 < estimate_slippage_by_notional cfg n adv ko tok ∧
    estimate_slippage_by_notional cfg n adv ko tok ≤ 1 / 20 := by
  simp only [estimate_slippage_by_notional]
  exact sqrtCore_bounds cfg hmin hmax _ _ n

theorem acCore_bounds (a1 b0 n dv : ℝ) :
    0 < acCore a1 b0 n dv ∧ acCore a1 b0 n dv ≤ 1 / 10 := by
  simp only [acCore]
  by_cases hv : n / (if dv ≤ 0 then (50000000 : ℝ) else dv) < 0
  · rw [if_pos hv]
    norm_num
  · rw [if_neg hv]
    have h1 : (0.1 : ℝ) ≤ max 0.1
        (min (a1 * (n / (if dv ≤ 0 then (50000000 : ℝ) else dv)) ^ b0 * 10000) 1000) :=
      le_max_left _ _
    have h2 : max (0.1 : ℝ)
        (min (a1 * (n / (if dv ≤ 0 then (50000000 : ℝ) else dv)) ^ b0 * 10000) 1000)
        ≤ 1000 :=
      max_le (by norm_num) (min_le_right _ _)
    constructor
    · linarith
    · linarith

theorem estimate_ac_bounds (cfg : SlippageConfig) (n dv : ℝ)
    (a b : Option ℝ) (tok : Option String) :
    0 < estimate_almgren_chriss_impact cfg n dv a b tok ∧
    estimate_almgren_chriss_impact cfg n dv a b tok ≤ 1 / 10 := by
  simp only [estimate_almgren_chriss_impact]
  exact acCore_bounds _ _ n dv

theorem mem_sideSorted (side : Side) (L : List (ℝ × ℝ)) (x : ℝ × ℝ) :
    x ∈ sideSorted side L ↔ x ∈ L := by
  cases side
  · simp only [sideSorted]
    exact mem_sortAsc _ _ _
  · simp only [sideSorted]
    exact mem_sortDesc _ _ _

theorem sideSorted_ne_nil (side : Side) (d : ℝ × ℝ) (ds : List (ℝ × ℝ)) :
    sideSorted side (d :: ds) ≠ [] :=
  List.ne_nil_of_mem ((mem_sideSorted side (d :: ds) d).mpr (List.mem_cons_self _ _))

theorem slipClamp_bounds (s0 : ℝ) :
    0 ≤ max 0 (min |s0| 0.20) ∧ max 0 (min |s0| 0.20) ≤ 3 / 10 := by
  have h1 : max (0 : ℝ) (min |s0| 0.20) ≤ 0.20 :=
    max_le (by norm_num) (min_le_right _ _)
  constructor
  · exact le_max_left _ _
  · linarith

theorem slipTail_bounds (s0 pen : ℝ) (hpen0 : 0 ≤ pen) (hpen1 : pen ≤ 1 / 10) :
    0 ≤ max 0 (min |s0| 0.20) + pen ∧ max 0 (min |s0| 0.20) + pen ≤ 3 / 10 := by
  have h0 : (0 : ℝ) ≤ max 0 (min |s0| 0.20) := le_max_left _ _
  have h1 : max (0 : ℝ) (min |s0| 0.20) ≤ 0.20 :=
    max_le (by norm_num) (min_le_right _ _)
  constructor
  · linarith
  · linarith

theorem depth_slippage_bounds (size : ℝ) (L : List (ℝ × ℝ)) (side : Side)
    (cp : Option ℝ) (hsz : ∀ l ∈ L, 0 ≤ l.2) :
    0 ≤ (estimate_execution_price_from_depth size L side cp).2 ∧
    (estimate_execution_price_from_depth size L side cp).2 ≤ 3 / 10 := by
  rcases L with _ | ⟨d, ds⟩
  · simp only [estimate_execution_price_from_depth]
    norm_num
  · have hmem : ∀ l ∈ sideSorted side (d :: ds), 0 ≤ l.2 := fun l hl =>
      hsz l ((mem_sideSorted side (d :: ds) l).mp hl)
    obtain ⟨hd0, tl0, hLs⟩ :=
      List.exists_cons_of_ne_nil (sideSorted_ne_nil side d ds)
    simp only [estimate_execution_price_from_depth]
    set W := walkLevels (sideSorted side (d :: ds)) size 0 0 with hW
    have hexec0 : 0 ≤ W.2.2 := by
      rw [hW]
      exact walkLevels_exec_nonneg _ size 0 0 le_rfl hmem
    by_cases hz : W.2.2 = 0
    · rw [if_pos hz]
      norm_num
    · rw [if_neg hz]
      have hexpos : 0 < W.2.2 := lt_of_le_of_ne hexec0 (Ne.symm hz)
      have hsizepos : 0 < size := by
        by_contra hns
        push_neg at hns
        have : W = (size, 0, 0) := by
          rw [hW, hLs]
          exact walkLevels_break hd0 tl0 size 0 0 hns
        rw [this] at hz
        exact hz rfl
      have hexecle : W.2.2 ≤ size := by
        have h := walkLevels_exec_le (sideSorted side (d :: ds)) size 0 0 hsizepos.le
        rw [← hW] at h
        linarith
      have hq1 : W.2.2 / size ≤ 1 := (div_le_one hsizepos).mpr hexecle
      have hq0 : 0 < W.2.2 / size := div_pos hexpos hsizepos
      have hpen0 : 0 ≤ (1 - W.2.2 / size) * 0.1 := by nlinarith
      have hpen1 : (1 - W.2.2 / size) * 0.1 ≤ 1 / 10 := by nlinarith
      rcases cp with _ | c
      · simp only
        by_cases hb : ((sideSorted side (d :: ds)).headD (0, 0)).1 = 0
        · rw [if_pos hb]
          simp only
          norm_num
        · rw [if_neg hb]
          simp only
          by_cases hrem : 0 < W.1
          · rw [if_pos hrem]
            exact slipTail_bounds _ _ hpen0 hpen1
          · rw [if_neg hrem]
            exact slipClamp_bounds _
      · simp only
        by_cases hc : 0 < c
        · rw [if_pos hc]
          simp only
          by_cases hrem : 0 < W.1
          · rw [if_pos hrem]
            exact slipTail_bounds _ _ hpen0 hpen1
          · rw [if_neg hrem]
            exact slipClamp_bounds _
        · rw [if_neg hc]
          by_cases hb : ((sideSorted side (d :: ds)).headD (0, 0)).1 = 0
          · rw [if_pos hb]
            simp only
            norm_num
          · rw [if_neg hb]
            simp only
            by_cases hrem : 0 < W.1
            · rw [if_pos hrem]
              exact slipTail_bounds _ _ hpen0 hpen1
            · rw [if_neg hrem]
              exact slipClamp_bounds _

theorem blendRecommended_bounds (sM aM dM : Option ℝ)
    (hs : ∀ x, sM = some x → 0 < x ∧ x ≤ 1 / 20)
    (ha : ∀ x, aM = some x → 0 < x ∧ x ≤ 1 / 10)
    (hd : ∀ x, dM = some x → 0 ≤ x ∧ x ≤ 3 / 10) :
    0 ≤ blendRecommended sM aM dM ∧ blendRecommended sM aM dM ≤ 3 / 10 := by
  rcases sM with _ | s <;> rcases aM with _ | a <;> rcases dM with _ | d <;>
    simp only [blendRecommended, Option.getD_some, Option.getD_none,
      Option.isSome_some, Option.isSome_none, if_true, if_false,
      Bool.false_eq_true, or_self, or_true, true_or, ite_true, ite_false]
  · norm_num
  · obtain ⟨hd1, hd2⟩ := hd d rfl
    rw [if_pos (by norm_num : (0:ℝ) < 0 + 0 + 0.3)]
    constructor
    · apply div_nonneg (by linarith) (by norm_num)
    · rw [div_le_iff₀ (by norm_num)]
      linarith
  · obtain ⟨ha1, ha2⟩ := ha a rfl
    rw [if_pos (by norm_num : (0:ℝ) < 0 + 0.3 + 0)]
    constructor
    · apply div_nonneg (by linarith) (by norm_num)
    · rw [div_le_iff₀ (by norm_num)]
      linarith
  · obtain ⟨ha1, ha2⟩ := ha a rfl
    obtain ⟨hd1, hd2⟩ := hd d rfl
    rw [if_pos (by norm_num : (0:ℝ) < 0 + 0.3 + 0.3)]
    constructor
    · apply div_nonneg (by linarith) (by norm_num)
    · rw [div_le_iff₀ (by norm_num)]
      linarith
  · obtain ⟨hs1, hs2⟩ := hs s rfl
    rw [if_pos (by norm_num : (0:ℝ) < 0.4 + 0 + 0)]
    constructor
    · apply div_nonneg (by linarith) (by norm_num)
    · rw [div_le_iff₀ (by norm_num)]
      linarith
  · obtain ⟨hs1, hs2⟩ := hs s rfl
    obtain ⟨hd1, hd2⟩ := hd d rfl
    rw [if_pos (by norm_num : (0:ℝ) < 0.4 + 0 + 0.3)]
    constructor
    · apply div_nonneg (by linarith) (by norm_num)
    · rw [div_le_iff₀ (by norm_num)]
      linarith
  · obtain ⟨hs1, hs2⟩ := hs s rfl
    obtain ⟨ha1, ha2⟩ := ha a rfl
    rw [if_pos (by norm_num : (0:ℝ) < 0.4 + 0.3 + 0)]
    constructor
    · apply div_nonneg (by linarith) (by norm_num)
    · rw [div_le_iff₀ (by norm_num)]
      linarith
  · obtain ⟨hs1, hs2⟩ := hs s rfl
    obtain ⟨ha1, ha2⟩ := ha a rfl
    obtain ⟨hd1, hd2⟩ := hd d rfl
    rw [if_pos (by norm_num : (0:ℝ) < 0.4 + 0.3 + 0.3)]
    constructor
    · apply div_nonneg (by linarith) (by norm_num)
    · rw [div_le_iff₀ (by norm_num)]
      linarith

theorem depthGate_some (depth : Option (List (ℝ × ℝ))) (cp : Option ℝ)
    (p : List (ℝ × ℝ) × ℝ) (h : depthGate depth cp = some p) :
    depth = some p.1 := by
  rcases depth with _ | L
  · simp [depthGate] at h
  · rcases cp with _ | c
    · rcases L with _ | ⟨d, ds⟩ <;> simp [depthGate] at h
    · rcases L with _ | ⟨d, ds⟩
      · simp [depthGate] at h
      · by_cases hc : c = 0
        · simp [depthGate, hc] at h
        · simp only [depthGate, if_neg hc, Option.some_inj] at h
          rw [← h]

open BridgeService ArbitrageService CacheService WsListener

/-! ## Claim theorems -/

/-- Claim C1, counterexample: a Monte Carlo call requesting 0 samples is not
clamped up to 1; the batch arrays are empty, numpy raises, and the error
payload carries no `n_simulations` value at all, so the reported value is
neither `min(0, 5000)` nor at least 1. -/
theorem c1_counterexample :
    simulate_bridge_execution_monte_carlo 0 zeroDraw =
      Except.error ("numpy raises on an empty or negative-size sample array") := by
  rfl

/-- Claim C1 (amended): the requested sample count is capped only from
above, `n_simulations = min(n, 5000)`; for every requested count `n ≥ 1`
the reported value therefore lies in `[1, 5000]`, while a non-positive
request produces an error payload with no reported value. -/
theorem c1_n_simulations_clamped (n : ℤ) (pnlDraw : ℕ → ℚ) (hn : 1 ≤ n) :
    reportedNSimulations (simulate_bridge_execution_monte_carlo n pnlDraw)
        = some (min n 5000) ∧
    1 ≤ min n 5000 ∧ min n 5000 ≤ 5000 := by
  have h1 : (1 : ℤ) ≤ min n 5000 := le_min hn (by norm_num)
  have h2 : ¬ min n 5000 ≤ 0 := by linarith
  refine ⟨?_, h1, min_le_right _ _⟩
  simp only [simulate_bridge_execution_monte_carlo]
  rw [if_neg h2]
  simp only [reportedNSimulations]

/-- Claim C1, witness: requesting 10000 samples reports exactly 5000. -/
theorem c1_witness :
    reportedNSimulations (simulate_bridge_execution_monte_carlo 10000 zeroDraw)
      = some 5000 := by
  have h := c1_n_simulations_clamped 10000 zeroDraw (by norm_num)
  rw [h.1]
  rw [show min (10000 : ℤ) 5000 = 5000 by decide]

/-- Claim C2 (code bug evaluation): with the remote tier unavailable, a
`set` returns `False` and leaves the cache unchanged — the local tier is
never written by the module — so the subsequent `get` of the same key
within any TTL misses instead of returning the stored value. -/
theorem c2_set_offline_noop :
    cacheSet offlineCache 0 ("price") (42 : ℚ) none = (false, offlineCache) ∧
    cacheGet (cacheSet offlineCache 0 ("price") (42 : ℚ) none).2 0 ("price")
      = none := by
  constructor
  · rfl
  · rfl

/-- Claim C3: for a token whose perp leg and spot leg are both present with
positive prices, an opportunity is emitted iff
`|spreadPct| ≥ min_spread_threshold`, and its strategy is
`long_spot_short_perp` for a positive spread and `short_spot_long_perp` for
a negative one. -/
theorem c3_detect_iff_strategy (token : String) (h : PerpData) (j : SpotData)
    (hp : 0 < h.mark_price) (hs : 0 < effectiveSpot j) :
    ((calcOpp token (some h) (some j)).isSome ↔
      min_spread_threshold ≤ |spread_pct h.mark_price (effectiveSpot j)|) ∧
    ∀ opp, calcOpp token (some h) (some j) = some opp →
      (0 < spread_pct h.mark_price (effectiveSpot j) →
        opp.strategy = "long_spot_short_perp") ∧
      (spread_pct h.mark_price (effectiveSpot j) < 0 →
        opp.strategy = "short_spot_long_perp") := by
  simp only [calcOpp]
  rw [if_pos ⟨hp, hs⟩]
  by_cases ht : min_spread_threshold ≤ |spread_pct h.mark_price (effectiveSpot j)|
  · rw [if_pos ht]
    refine ⟨by simp [ht], ?_⟩
    intro opp hopp
    rw [Option.some_inj] at hopp
    constructor
    · intro hpos
      rw [← hopp]
      show (if 0 < spread_pct h.mark_price (effectiveSpot j)
        then "long_spot_short_perp" else "short_spot_long_perp") = _
      rw [if_pos hpos]
    · intro hneg
      rw [← hopp]
      show (if 0 < spread_pct h.mark_price (effectiveSpot j)
        then "long_spot_short_perp" else "short_spot_long_perp") = _
      rw [if_neg (by linarith)]
  · rw [if_neg ht]
    refine ⟨by simp [ht], ?_⟩
    intro opp hopp
    simp at hopp

/-- Claim C3, witness: spot 100, perp 100.6, threshold 0.3 give spread 0.6
and an emitted opportunity. -/
theorem c3_witness :
    (calcOpp ("SOL") (some ⟨100.6, 0⟩) (some ⟨100, 100⟩)).isSome = true := by
  have hspot : effectiveSpot ⟨100, 100⟩ = 100 := by norm_num [effectiveSpot]
  have h := c3_detect_iff_strategy ("SOL") ⟨100.6, 0⟩ ⟨100, 100⟩
    (by norm_num) (by rw [hspot]; norm_num)
  apply h.1.mpr
  rw [hspot]
  rw [show spread_pct (PerpData.mk 100.6 0).mark_price 100 = 3 / 5 by
    norm_num [spread_pct]]
  rw [abs_of_nonneg (by norm_num)]
  norm_num [min_spread_threshold]

/-- Claim C4, counterexample: three stored opportunities with equal absolute
spread come back in store (iteration) order SOL, ETH, JUP, which is ordered
by token name in neither direction, so ties are not broken by token name. -/
theorem c4_counterexample :
    ((get_arbitrage_opportunities [oSOL, oETH, oJUP] none).map fun o => o.token)
        = ["SOL", "ETH", "JUP"] ∧
    oSOL.spread_abs = oETH.spread_abs ∧ oETH.spread_abs = oJUP.spread_abs ∧
    ("ETH" : String) < "SOL" ∧ ("ETH" : String) < "JUP" := by
  refine ⟨by decide, rfl, rfl, ?_, ?_⟩
  · norm_num
    decide
  · norm_num
    decide

/-- Claim C4 (amended): the returned list is sorted by descending absolute
spread, and opportunities with equal absolute spread keep the relative order
of the underlying store (stable sort), which is the token-map insertion
order, not token-name order; the output is still deterministic in the store
contents. -/
theorem c4_sorted_and_stable (store : List Opportunity) (ms : Option ℚ) :
    (get_arbitrage_opportunities store ms).Pairwise
      (fun x y => y.spread_abs ≤ x.spread_abs) ∧
    ∀ q : ℚ, (get_arbitrage_opportunities store ms).filter
        (fun o => decide (o.spread_abs = q)) =
      (filterMinSpread store ms).filter fun o => decide (o.spread_abs = q) := by
  constructor
  · exact pairwise_sortDesc (fun o => o.spread_abs) (filterMinSpread store ms)
  · intro q
    exact filter_sortDesc (fun o => o.spread_abs) q (filterMinSpread store ms)

/-- Claim C7: the depth walk fills at most the available size at each level,
executes in total at most the requested size, and when at least one level is
consumed the size-weighted average price lies between any bounds enclosing
the prices of the levels actually consumed (the levels with positive fill). -/
theorem c7_depth_walk (L : List (ℚ × ℚ)) (s lo hi : ℚ) (hs : 0 < s)
    (hsz : ∀ l ∈ L, 0 ≤ l.2)
    (hcons : ∀ pf ∈ L.zip (fillsOf L s), 0 < pf.2 → lo ≤ pf.1.1 ∧ pf.1.1 ≤ hi) :
    (∀ pf ∈ L.zip (fillsOf L s), pf.2 ≤ pf.1.2) ∧
    (walkLevels L s 0 0).2.2 ≤ s ∧
    (0 < (walkLevels L s 0 0).2.2 →
      lo ≤ (walkLevels L s 0 0).2.1 / (walkLevels L s 0 0).2.2 ∧
      (walkLevels L s 0 0).2.1 / (walkLevels L s 0 0).2.2 ≤ hi) := by
  refine ⟨fillsOf_le_avail L s hsz, ?_, ?_⟩
  · have h := walkLevels_exec_le L s 0 0 hs.le
    linarith
  · intro hpos
    have hb := walkLevels_cost_bound lo hi L s 0 0 le_rfl (by simp) (by simp)
      hsz hcons
    constructor
    · rw [le_div_iff₀ hpos]
      exact hb.2.1
    · rw [div_le_iff₀ hpos]
      exact hb.2.2

/-- Claim C7, witness: the book `[(101, 50), (102, 50)]` with a buy of 100
fills both levels completely and the average price `101.5` lies in
`[101, 102]`. -/
theorem c7_witness :
    (walkLevels [((101 : ℚ), 50), (102, 50)] 100 0 0).2.2 ≤ 100 ∧
    (101 : ℚ) ≤ (walkLevels [((101 : ℚ), 50), (102, 50)] 100 0 0).2.1 /
      (walkLevels [((101 : ℚ), 50), (102, 50)] 100 0 0).2.2 ∧
    (walkLevels [((101 : ℚ), 50), (102, 50)] 100 0 0).2.1 /
      (walkLevels [((101 : ℚ), 50), (102, 50)] 100 0 0).2.2 ≤ 102 := by
  have h := c7_depth_walk [((101 : ℚ), 50), (102, 50)] 100 101 102
    (by norm_num) (by norm_num)
    (by norm_num [fillsOf, min_def, List.zip_cons_cons])
  refine ⟨h.2.1, h.2.2 ?_⟩
  norm_num [walkLevels, min_def]

/-- Claim C8, counterexample: saving a template that reuses the name of a
default template leaves two stored templates with the name `SOL Scalping`,
so the store does not keep at most one template per name. -/
theorem c8_counterexample :
    ¬ (((runTemplateOps defaultTemplates [TemplateOp.save dupTemplate]).map
      fun t => t.name).Nodup) := by
  decide

/-- Claim C8 (amended): `save_execution_template` appends unconditionally
(no uniqueness check), so duplicate names can coexist; what does hold is
that `delete_execution_template` removes every template bearing the given
name and preserves name-uniqueness of the store. -/
theorem c8_delete_removes_name (store : List ExecutionTemplate) (nm : String) :
    (∀ t ∈ delete_execution_template store nm, t.name ≠ nm) ∧
    ((store.map fun t => t.name).Nodup →
      ((delete_execution_template store nm).map fun t => t.name).Nodup) := by
  constructor
  · intro t ht
    simp only [delete_execution_template] at ht
    have h := List.of_mem_filter ht
    simpa [bne_iff_ne] using h
  · intro hnd
    have hsub : List.Sublist
        ((delete_execution_template store nm).map fun t => t.name)
        (store.map fun t => t.name) :=
      (List.filter_sublist store).map fun t => t.name
    exact List.Nodup.sublist hsub hnd

/-- Claim C8, witness: deleting `SOL Scalping` from the default store keeps
the remaining names unique (and removes every bearer of the name). -/
theorem c8_witness :
    ((delete_execution_template defaultTemplates ("SOL Scalping")).map
      fun t => t.name).Nodup := by
  have h := c8_delete_removes_name defaultTemplates ("SOL Scalping")
  exact h.2 (by decide)

/-- Claim C9, counterexample: after the 4th consecutive failure against the
primary endpoint the listener has switched to the secondary endpoint, but
its reconnect-attempt counter is not 0 — `_handle_reconnection` increments
the counter that the switch just reset. -/
theorem c9_counterexample :
    ¬ (afterFourFailures.use_testnet_fallback = true ∧
       afterFourFailures.reconnect_attempts = 0) := by
  decide

/-- Claim C9 (amended): immediately after the 4th consecutive failure the
listener has switched to the secondary (testnet) endpoint and its
reconnect-attempt counter equals 1: the switch resets it to 0 and the same
failure's reconnection handler then increments it. -/
theorem c9_after_fourth_failure :
    afterFourFailures.ws_url = testnet_ws_url ∧
    afterFourFailures.use_testnet_fallback = true ∧
    afterFourFailures.reconnect_attempts = 1 := by
  refine ⟨rfl, rfl, rfl⟩

/-- Claim C10: an explicit impact coefficient `k = 0` is Python-falsy in
`k or self.config.k_sqrt`, so it is replaced by the configured default and
the call returns exactly what the call with `k` omitted returns. -/
theorem c10_zero_coefficient_defaults (notional adv : ℝ) (token : Option String) :
    estimate_slippage_by_notional defaultConfig notional adv (some 0) token =
      estimate_slippage_by_notional defaultConfig notional adv none token := by
  simp [estimate_slippage_by_notional]

/-- Claim C5 (code evaluation at the failing input): with the default
configuration, ADV fixed at 1e6 and the coefficient defaulted, the
square-root estimates for notionals 10000 and 40000 are both clamped at
`max_slippage_bps` and equal 0.05, so the estimate is not strictly
increasing in the notional (the repository's own monotonicity test and the
"preserve calculated values" comment are contradicted by the clamp). -/
theorem c5_clamped_at_max_equal :
    estimate_slippage_by_notional defaultConfig 10000 1000000 none none = 1 / 20 ∧
    estimate_slippage_by_notional defaultConfig 40000 1000000 none none = 1 / 20 := by
  constructor
  · have h1 : Real.sqrt ((10000 : ℝ) / 1000000) = 1 / 10 := by
      rw [show ((10000 : ℝ) / 1000000) = (1 / 10) ^ 2 by norm_num]
      exact Real.sqrt_sq (by norm_num)
    simp only [estimate_slippage_by_notional, sqrtCore, defaultConfig]
    rw [if_neg (by norm_num : ¬ (1000000 : ℝ) ≤ 0)]
    rw [if_neg (by norm_num : ¬ (10000 : ℝ) / 1000000 < 0)]
    rw [h1]
    rw [if_neg (by norm_num : ¬ (0.7 : ℝ) * (1 / 10) * 10000 < 0.5)]
    rw [if_pos (by norm_num : (0.7 : ℝ) * (1 / 10) * 10000 > 500)]
    rw [min_eq_right (by norm_num : (500 : ℝ) ≤ 0.7 * (1 / 10) * 10000)]
    norm_num
  · have h1 : Real.sqrt ((40000 : ℝ) / 1000000) = 1 / 5 := by
      rw [show ((40000 : ℝ) / 1000000) = (1 / 5) ^ 2 by norm_num]
      exact Real.sqrt_sq (by norm_num)
    simp only [estimate_slippage_by_notional, sqrtCore, defaultConfig]
    rw [if_neg (by norm_num : ¬ (1000000 : ℝ) ≤ 0)]
    rw [if_neg (by norm_num : ¬ (40000 : ℝ) / 1000000 < 0)]
    rw [h1]
    rw [if_neg (by norm_num : ¬ (0.7 : ℝ) * (1 / 5) * 10000 < 0.5)]
    rw [if_pos (by norm_num : (0.7 : ℝ) * (1 / 5) * 10000 > 500)]
    rw [min_eq_right (by norm_num : (500 : ℝ) ≤ 0.7 * (1 / 5) * 10000)]
    norm_num

/-- Claim C6 (amended): over any configuration the module can build (clamp
bounds are fixed at 0.5 and 500 bps), and for depth books whose level sizes
are nonnegative, the `recommended` value lies in `[0, 0.3]`: each estimator
is clamped (square-root to at most 0.05, Almgren-Chriss to at most 0.1, the
depth estimate below 0.3 including the partial-fill penalty), and the blend
is a convex renormalised combination.  The original interval `(0, 0.05]` is
wrong at both ends. -/
theorem c6_recommended_bounded (k a b notional : ℝ) (token : String)
    (adv : Option ℝ) (depth : Option (List (ℝ × ℝ))) (cp : Option ℝ)
    (side : Side) (hdepth : ∀ l ∈ depth.getD [], 0 ≤ l.2) :
    0 ≤ (estimate_combined_slippage (envConfig k a b) notional token adv depth
        cp side).recommended ∧
    (estimate_combined_slippage (envConfig k a b) notional token adv depth
        cp side).recommended ≤ 3 / 10 := by
  simp only [estimate_combined_slippage]
  apply blendRecommended_bounds
  · intro x hx
    rw [Option.map_eq_some'] at hx
    obtain ⟨a0, _, rfl⟩ := hx
    exact estimate_slippage_bounds (envConfig k a b) (by simp [envConfig])
      (by simp [envConfig]) notional a0 none (some token)
  · intro x hx
    rw [Option.map_eq_some'] at hx
    obtain ⟨a0, _, rfl⟩ := hx
    exact estimate_ac_bounds (envConfig k a b) notional a0 none none (some token)
  · intro x hx
    rw [Option.map_eq_some'] at hx
    obtain ⟨p, hp, rfl⟩ := hx
    have hdd := depthGate_some depth cp p hp
    have hszp : ∀ l ∈ p.1, 0 ≤ l.2 := by
      rw [hdd] at hdepth
      simpa using hdepth
    exact depth_slippage_bounds (notional / p.2) p.1 side (some p.2) hszp

/-- Claim C6, witness: a concrete call (default coefficients, no ADV, a
one-level book of nonnegative size) has its recommendation inside
`[0, 0.3]`. -/
theorem c6_witness :
    0 ≤ (estimate_combined_slippage (envConfig 0.7 0.3 0.6) 1000 ("SOL") none
        (some [(100, 100)]) (some 100) Side.buy).recommended ∧
    (estimate_combined_slippage (envConfig 0.7 0.3 0.6) 1000 ("SOL") none
        (some [(100, 100)]) (some 100) Side.buy).recommended ≤ 3 / 10 := by
  exact c6_recommended_bounded 0.7 0.3 0.6 1000 ("SOL") none
    (some [(100, 100)]) (some 100) Side.buy (by norm_num)

/-- Claim C6, counterexample: a buy of 10 tokens against a book of 100
tokens at exactly the reference price is fully filled with zero slippage, so
`recommended = 0` (not strictly positive); a buy of 10 tokens against a
1-token book picks up the partial-fill penalty and `recommended = 0.09`,
exceeding the configured maximum bound 0.05. -/
theorem c6_counterexample :
    (estimate_combined_slippage defaultConfig 1000 ("SOL") none
        (some [(100, 100)]) (some 100) Side.buy).recommended = 0 ∧
    ¬ (0 < (estimate_combined_slippage defaultConfig 1000 ("SOL") none
        (some [(100, 100)]) (some 100) Side.buy).recommended) ∧
    (estimate_combined_slippage defaultConfig 1000 ("SOL") none
        (some [(100, 1)]) (some 100) Side.buy).recommended = 9 / 100 ∧
    1 / 20 < (estimate_combined_slippage defaultConfig 1000 ("SOL") none
        (some [(100, 1)]) (some 100) Side.buy).recommended := by
  have hA : (estimate_execution_price_from_depth ((1000 : ℝ) / 100)
      [((100 : ℝ), 100)] Side.buy (some 100)).2 = 0 := by
    simp only [estimate_execution_price_from_depth, sideSorted, sortAsc,
      insertAsc, walkLevels]
    norm_num [min_def]
  have hB : (estimate_execution_price_from_depth ((1000 : ℝ) / 100)
      [((100 : ℝ), 1)] Side.buy (some 100)).2 = 9 / 100 := by
    simp only [estimate_execution_price_from_depth, sideSorted, sortAsc,
      insertAsc, walkLevels]
    norm_num [min_def]
  have hrecA : (estimate_combined_slippage defaultConfig 1000 ("SOL") none
      (some [(100, 100)]) (some 100) Side.buy).recommended = 0 := by
    simp only [estimate_combined_slippage, advGate, depthGate]
    rw [if_neg (by norm_num : ¬ (100 : ℝ) = 0)]
    simp only [Option.map_none', Option.map_some']
    rw [hA]
    simp [blendRecommended]
    norm_num
  have hrecB : (estimate_combined_slippage defaultConfig 1000 ("SOL") none
      (some [(100, 1)]) (some 100) Side.buy).recommended = 9 / 100 := by
    simp only [estimate_combined_slippage, advGate, depthGate]
    rw [if_neg (by norm_num : ¬ (100 : ℝ) = 0)]
    simp only [Option.map_none', Option.map_some']
    rw [hB]
    simp [blendRecommended]
    norm_num
  refine ⟨hrecA, ?_, hrecB, ?_⟩
  · rw [hrecA]
    norm_num
  · rw [hrecB]
    norm_num

end PerpSpot
